import Mathlib

/-!
Verification development for the CN domain categorizer
(src/categorize_cn_domains.py).

The classifier core (`is_idn`, `classify`), the report writer
(`multi_sheet_write`) and the batch worker (`Worker.run`) are embedded from
the source.  The two external libraries the source calls — `tldextract`
(public-suffix extraction) and `idna` (ASCII-compatible encoding) — are not
part of this repository; they are modelled from the behaviour the spec
describes for them, restricted to the character ranges and public-suffix
entries this program exercises.  Python strings are modelled as Lean
strings (lists of Unicode code points).
-/

/-- Model of Python `str.lower` as a lookup table: the uppercase letters of
the Basic Latin and Latin-1 blocks mapped to their lowercase forms (the only
cased characters relevant here); every other character is left unchanged. -/
def lowerPairs : List (Char × Char) :=
  [('A','a'), ('B','b'), ('C','c'), ('D','d'), ('E','e'), ('F','f'), ('G','g'),
   ('H','h'), ('I','i'), ('J','j'), ('K','k'), ('L','l'), ('M','m'), ('N','n'),
   ('O','o'), ('P','p'), ('Q','q'), ('R','r'), ('S','s'), ('T','t'), ('U','u'),
   ('V','v'), ('W','w'), ('X','x'), ('Y','y'), ('Z','z'),
   ('À','à'), ('Á','á'), ('Â','â'), ('Ã','ã'), ('Ä','ä'), ('Å','å'), ('Æ','æ'),
   ('Ç','ç'), ('È','è'), ('É','é'), ('Ê','ê'), ('Ë','ë'), ('Ì','ì'), ('Í','í'),
   ('Î','î'), ('Ï','ï'), ('Ð','ð'), ('Ñ','ñ'), ('Ò','ò'), ('Ó','ó'), ('Ô','ô'),
   ('Õ','õ'), ('Ö','ö'), ('Ø','ø'), ('Ù','ù'), ('Ú','ú'), ('Û','û'), ('Ü','ü'),
   ('Ý','ý'), ('Þ','þ')]

def lowerChar (c : Char) : Char := (lowerPairs.lookup c).getD c

def pyLower (s : String) : String := String.mk (s.data.map lowerChar)

/-- Python `str.isascii`: every code point is below 128 (true for ""). -/
def pyIsAscii (s : String) : Bool := s.data.all fun c => c.toNat < 128

/-- ASCII whitespace stripped by Python `str.strip` (model restricted to the
ASCII whitespace characters). -/
def pyIsSpace (c : Char) : Bool :=
  c == ' ' || c == '\t' || c == '\n' || c == '\r' || c == '\x0b' || c == '\x0c'

def pyStrip (s : String) : String :=
  String.mk (((s.data.dropWhile pyIsSpace).reverse.dropWhile pyIsSpace).reverse)

/-- Python `"x".split "."` semantics: splitting on every dot, keeping empty
pieces ("" splits to [""]). -/
def splitDotAux : List Char → List Char → List String
  | [], acc => [String.mk acc.reverse]
  | c :: cs, acc =>
    if c == '.' then String.mk acc.reverse :: splitDotAux cs []
    else splitDotAux cs (c :: acc)

def splitDot (s : String) : List String := splitDotAux s.data []

def joinDots : List String → String
  | [] => ""
  | [s] => s
  | s :: rest => s ++ "." ++ joinDots rest

-- ───────────────── bucket definitions (from the source) ─────────────────

def COLUMN : String := "Domain Name"

def BUCKETS : List String :=
  ["IDN.IDN", "IDN.XN--FIQS8S", "ASCII.XN--FIQS8S",
   "ASCII.CN", "IDN.CN", ".COM.CN", ".NET.CN", ".ORG.CN"]

def ALL_BUCKETS : List String := BUCKETS ++ ["UNCLASSIFIED"]

/-- The regex PUNY = `^xn--` with the ignore-case flag: the first four
characters are x/X, n/N, -, -. -/
def PUNY_match (s : String) : Bool :=
  match s.data with
  | c1 :: c2 :: c3 :: c4 :: _ =>
    (c1 == 'x' || c1 == 'X') && (c2 == 'n' || c2 == 'N') && c3 == '-' && c4 == '-'
  | _ => false

def PUNY_TLDS : List String := ["xn--fiqs8s", "xn--fiqz9s"]

def GENERIC_SLD : List (String × String) :=
  [("com.cn", ".COM.CN"), ("net.cn", ".NET.CN"), ("org.cn", ".ORG.CN")]

/-- `is_idn` from the source: not `label.isascii()`, or the label matches the
PUNY regex. -/
def is_idn (label : String) : Bool := !(pyIsAscii label) || PUNY_match label

-- ───────────────── model of tldextract ─────────────────

/-- Modelled from the spec: the public-suffix-list lookup that `tldextract`
(an external dependency, not code of this repository) performs, restricted
to the public-suffix entries this program exercises: the bare country code,
its generic and province-level second-level zones, the two native-script
top-level domains in Unicode and ASCII-compatible form, and common generic
top-level domains. -/
def publicSuffixList : List String :=
  ["cn", "com.cn", "net.cn", "org.cn", "gov.cn", "edu.cn", "ac.cn",
   "ah.cn", "bj.cn", "gs.cn", "xj.cn",
   "xn--fiqs8s", "xn--fiqz9s", "中国", "中國",
   "com", "net", "org"]

structure ExtractResult where
  subdomain : String
  domain : String
  suffix : String
deriving DecidableEq, Repr

/-- Suffix matching is case-insensitive (the returned labels keep the case of
the input). -/
def isPslMatch (labels : List String) : Bool :=
  publicSuffixList.contains (pyLower (joinDots labels))

/-- Splits the label list into (labels before the suffix, suffix labels),
taking the longest tail of the label list that is a listed public suffix. -/
def extractParts : List String → List String × List String
  | [] => ([], [])
  | l :: ls =>
    if isPslMatch (l :: ls) then ([], l :: ls)
    else
      let p := extractParts ls
      (l :: p.1, p.2)

/-- Modelled from the spec: `tldextract.extract` — the registrable-suffix
split of a host name.  When no listed suffix matches, the suffix is empty
and the domain is the last label, as tldextract does. -/
def tldextract_extract (s : String) : ExtractResult :=
  let p := extractParts (splitDot s)
  { subdomain := joinDots p.1.dropLast
    domain := (p.1.getLast?).getD ""
    suffix := joinDots p.2 }

-- ───────────────── model of the idna library ─────────────────

/-- Modelled from the spec: IDNA 2008 code-point validity as checked by the
external `idna` library, restricted to the ranges this program exercises:
lowercase ASCII letters, digits and hyphen, the lowercase Latin-1 letters
(including sharp s), and the CJK Unified Ideographs block are valid;
everything else — in particular uppercase letters, which only the UTS 46
preprocessing (not used by the source) would map — is disallowed. -/
def idnaPValid (c : Char) : Bool :=
  let n := c.toNat
  (97 ≤ n && n ≤ 122) || (48 ≤ n && n ≤ 57) || n == 45 ||
  (0xDF ≤ n && n ≤ 0xFF && n != 0xF7) ||
  (0x4E00 ≤ n && n ≤ 0x9FFF)

/-- Hyphens in the third and fourth positions are disallowed (the label
would mimic an ACE label). -/
def hyphen34ok : List Char → Bool
  | _ :: _ :: '-' :: '-' :: _ => false
  | _ => true

/-- Modelled from the spec: the `check_label` validation of the idna
library: nonempty, no leading or trailing hyphen, no hyphens at positions
three and four, all code points valid. -/
def check_label (l : String) : Bool :=
  match l.data with
  | [] => false
  | c :: cs =>
    c != '-' && ((c :: cs).getLast?.getD ' ') != '-' &&
    hyphen34ok (c :: cs) && (c :: cs).all idnaPValid

-- Punycode (RFC 3492 Bootstring) with the standard parameters
-- base 36, tmin 1, tmax 26, skew 38, damp 700, initial bias 72, initial n 128.

def punyAdaptLoop : Nat → Nat → Nat → Nat × Nat
  | 0, k, delta => (k, delta)
  | fuel + 1, k, delta =>
    if 455 < delta then punyAdaptLoop fuel (k + 36) (delta / 35)
    else (k, delta)

def punyAdapt (delta numpoints : Nat) (firsttime : Bool) : Nat :=
  let d1 := if firsttime then delta / 700 else delta / 2
  let d2 := d1 + d1 / numpoints
  let p := punyAdaptLoop 64 0 d2
  p.1 + (36 * p.2) / (p.2 + 38)

def punyDigitChar (d : Nat) : Char :=
  if d < 26 then Char.ofNat (97 + d) else Char.ofNat (22 + d)

def punyThreshold (k bias : Nat) : Nat :=
  if k ≤ bias then 1 else if bias + 26 ≤ k then 26 else k - bias

/-- The variable-length integer written for one delta, digits in generation
order (least significant first). -/
def punyDigits : Nat → Nat → Nat → Nat → List Char → List Char
  | 0, _, _, _, acc => acc.reverse
  | fuel + 1, bias, q, k, acc =>
    let t := punyThreshold k bias
    if q < t then (punyDigitChar q :: acc).reverse
    else punyDigits fuel bias ((q - t) / (36 - t)) (k + 36) (punyDigitChar (t + (q - t) % (36 - t)) :: acc)

def punyMinAbove (cps : List Nat) (n : Nat) : Nat :=
  cps.foldl (fun m c => if n ≤ c && c < m then c else m) 0x110000

/-- One pass over the code points at the current value of n: counts the
smaller ones into delta and writes the deltas of the ones equal to n.
Returns (delta, bias, h, output). -/
def punyPass (bcount : Nat) (n : Nat) :
    List Nat → Nat → Nat → Nat → List Char → Nat × Nat × Nat × List Char
  | [], delta, bias, h, out => (delta, bias, h, out)
  | c :: rest, delta, bias, h, out =>
    let delta := if c < n then delta + 1 else delta
    if c == n then
      let ds := punyDigits 64 bias delta 36 []
      punyPass bcount n rest 0 (punyAdapt delta (h + 1) (h == bcount)) (h + 1) (out ++ ds)
    else punyPass bcount n rest delta bias h out

def punyOuter (cps : List Nat) (bcount : Nat) :
    Nat → Nat → Nat → Nat → Nat → List Char → List Char
  | 0, _, _, _, _, out => out
  | fuel + 1, n, delta, bias, h, out =>
    if cps.length ≤ h then out
    else
      let m := punyMinAbove cps n
      let d2 := delta + (m - n) * (h + 1)
      let r := punyPass bcount m cps d2 bias h out
      punyOuter cps bcount fuel (m + 1) (r.1 + 1) r.2.1 r.2.2.1 r.2.2.2

/-- RFC 3492 punycode encoding of a label (without the xn-- marker). -/
def punyEncode (s : String) : String :=
  let cps := s.data.map Char.toNat
  let basics := s.data.filter (fun c => c.toNat < 128)
  let b := basics.length
  let init := if 0 < b then basics ++ ['-'] else basics
  String.mk (punyOuter cps b (cps.length + 1) 128 0 72 b init)

def punyDigitVal (c : Char) : Option Nat :=
  let n := c.toNat
  if 97 ≤ n && n ≤ 122 then some (n - 97)
  else if 65 ≤ n && n ≤ 90 then some (n - 65)
  else if 48 ≤ n && n ≤ 57 then some (n - 48 + 26)
  else none

/-- Reads one variable-length integer; returns (value, remaining input). -/
def punyDecDigits : Nat → List Char → Nat → Nat → Nat → Nat → Option (Nat × List Char)
  | 0, _, _, _, _, _ => none
  | fuel + 1, cs, i, w, k, bias =>
    match cs with
    | [] => none
    | c :: rest =>
      match punyDigitVal c with
      | none => none
      | some d =>
        let i2 := i + d * w
        let t := punyThreshold k bias
        if d < t then some (i2, rest)
        else punyDecDigits fuel rest i2 (w * (36 - t)) (k + 36) bias

def insertAt : Nat → Nat → List Nat → List Nat
  | 0, a, l => a :: l
  | _ + 1, a, [] => [a]
  | k + 1, a, x :: xs => x :: insertAt k a xs

def punyDecOuter : Nat → List Char → Nat → Nat → Nat → List Nat → Option (List Nat)
  | 0, _, _, _, _, _ => none
  | fuel + 1, cs, n, i, bias, out =>
    match cs with
    | [] => some out
    | _ :: _ =>
      match punyDecDigits (cs.length + 1) cs i 1 36 bias with
      | none => none
      | some (i2, rest) =>
        let outlen := out.length + 1
        let bias2 := punyAdapt (i2 - i) outlen (i == 0)
        let n2 := n + i2 / outlen
        let pos := i2 % outlen
        if 0x110000 ≤ n2 then none
        else punyDecOuter fuel rest n2 (pos + 1) bias2 (insertAt pos n2 out)

def breakAtFirst (c : Char) : List Char → Option (List Char × List Char)
  | [] => none
  | x :: xs =>
    if x == c then some ([], xs)
    else (breakAtFirst c xs).map (fun p => (x :: p.1, p.2))

/-- RFC 3492 punycode decoding: the part after the last hyphen holds the
deltas, the part before it the basic code points. -/
def punyDecode (cs : List Char) : Option (List Nat) :=
  let split :=
    match breakAtFirst '-' cs.reverse with
    | some p => (p.2.reverse, p.1.reverse)
    | none => ([], cs)
  if !(split.1.all (fun c => c.toNat < 128)) then none
  else if split.2.isEmpty then some (split.1.map Char.toNat)
  else punyDecOuter (split.2.length + 1) split.2 128 0 72 (split.1.map Char.toNat)

/-- Modelled from the spec: the per-label encoding step of `idna.encode`
(the `alabel` function).  A pure-ASCII label is validated — lower-cased, and
either decoded from its ACE form or checked directly — and returned
unchanged; a label with non-ASCII characters is validity-checked without
any case mapping (so uppercase letters make it fail) and punycode-encoded
behind the xn-- marker.  Failure is `none` (the library raises IDNAError). -/
def alabel (label : String) : Option String :=
  if pyIsAscii label then
    match (pyLower label).data with
    | 'x' :: 'n' :: '-' :: '-' :: rest =>
      if rest.isEmpty then none
      else
        match punyDecode rest with
        | none => none
        | some cps =>
          if check_label (String.mk (cps.map Char.ofNat)) then some label else none
    | _ => if check_label (pyLower label) then some label else none
  else
    if check_label label then
      let ace := "xn--" ++ punyEncode label
      if ace.length ≤ 63 then some ace else none
    else none

/-- Modelled from the spec: `idna.encode` of the external idna library —
ASCII-compatible re-encoding of a whole domain, failing (`none`) on an empty
domain, on any invalid label, or on an over-long result; the classification
step 4 treats failure as the rule not matching. -/
def idna_encode (s : String) : Option String :=
  let labels := splitDot s
  if labels == [""] then none
  else
    let labels2 := if labels.getLast? == some "" then labels.dropLast else labels
    match labels2.mapM alabel with
    | none => none
    | some ls =>
      let j := joinDots ls
      if j.length ≤ 253 then some j else none

-- ───────────────── the classifier (from the source) ─────────────────

def endsWithDotCn (s : String) : Bool := ".cn".data.isSuffixOf s.data

/-- `classify` from the source: rule 1 generic second-level zones, rule 2
puny-coded Chinese TLDs, rule 3 any suffix that is or ends in cn, rule 4
the fully-Unicode edge case via re-encoding, else UNCLASSIFIED. -/
def classify (domain : String) : String :=
  let ext := tldextract_extract (pyLower domain)
  match GENERIC_SLD.lookup ext.suffix with
  | some b => b
  | none =>
    if PUNY_TLDS.contains ext.suffix then
      if is_idn ext.domain then "IDN.XN--FIQS8S" else "ASCII.XN--FIQS8S"
    else if ext.suffix == "cn" || endsWithDotCn ext.suffix then
      if is_idn ext.domain then "IDN.CN" else "ASCII.CN"
    else
      match idna_encode domain with
      | some ace =>
        let e2 := tldextract_extract ace
        if PUNY_TLDS.contains e2.suffix && is_idn e2.domain then "IDN.IDN"
        else "UNCLASSIFIED"
      | none => "UNCLASSIFIED"

-- ───────────────── report writer (from the source) ─────────────────

/-- A row of the labelled table: the original cells plus the appended
bucket column. -/
structure LabeledRow where
  cells : List String
  bucket : String
deriving DecidableEq, Repr

/-- Python slicing `s[:n]` by code points. -/
def pyTake (n : Nat) (s : String) : String := String.mk (s.data.take n)

/-- `multi_sheet_write` from the source, modelled as the list of sheets it
writes: for each bucket of ALL_BUCKETS in order, the rows whose bucket
column equals it, written (under the bucket name cut to 31 characters) only
when nonempty. -/
def multi_sheet_write (df : List LabeledRow) : List (String × List LabeledRow) :=
  ALL_BUCKETS.filterMap fun b =>
    let sub := df.filter fun r => r.bucket == b
    if sub.isEmpty then none else some (pyTake 31 b, sub)

-- ───────────────── batch worker (from the source) ─────────────────

/-- The input table as the worker sees it: the column names, and the values
of the Domain Name column as strings (pandas astype str). -/
structure InputTable where
  columns : List String
  rows : List String
deriving DecidableEq, Repr

/-- The signals the worker emits, in order: progress percentages, the
completed workbook write, and the single finished signal carrying the
output path, an error description ("" on success) and the counts. -/
inductive Event where
  | progress (pct : Nat)
  | wrote (outfile : String)
  | finished (outfile : String) (error : String) (counts : List (String × Nat))
deriving DecidableEq, Repr

/-- The progress percentage `int(i / max(total, 1) * 100)`; the float
arithmetic of the source is modelled exactly as the floor of the rational
value, which the properties proved here do not distinguish. -/
def pctOf (i total : Nat) : Nat := i * 100 / max total 1

/-- The checkpoints the row loop emits: one per row index divisible by 50. -/
def progressTrace (total : Nat) : List Event :=
  ((List.range total).filter fun i => i % 50 == 0).map fun i =>
    Event.progress (pctOf i total)

/-- The bucket column the loop assigns: each cell stripped and classified. -/
def bucketLabels (t : InputTable) : List String :=
  t.rows.map fun v => classify (pyStrip v)

/-- `value_counts` of the bucket column as a count mapping (association
list; pandas orders it by frequency, which no property here observes). -/
def valueCounts (l : List String) : List (String × Nat) :=
  l.dedup.map fun v => (v, l.count v)

/-- The counts dictionary of the finished signal: the bucket frequencies
with TOTAL set to the row count (TOTAL is set last, so it wins lookups). -/
def runCounts (t : InputTable) : List (String × Nat) :=
  ("TOTAL", t.rows.length) :: valueCounts (bucketLabels t)

/-- Dictionary access `counts.get(k, 0)`. -/
def countGet (cs : List (String × Nat)) (k : String) : Nat :=
  (cs.lookup k).getD 0

/-- `Worker.run` from the source, modelled as the ordered list of signals
it emits.  `readResult` stands for the outcome of reading the input file
(pandas read_csv / read_excel) and `writeErr` for a failure of the workbook
write; any raised error is caught and emitted as the single finished signal
with empty counts. -/
def Worker.run (outfile : String) (readResult : Except String InputTable)
    (writeErr : Option String) : List Event :=
  match readResult with
  | .error e => [Event.finished outfile e []]
  | .ok t =>
    if COLUMN ∈ t.columns then
      let total := t.rows.length
      match writeErr with
      | some e => progressTrace total ++ [Event.progress 100, Event.finished outfile e []]
      | none =>
        progressTrace total ++
          [Event.progress 100, Event.wrote outfile,
           Event.finished outfile "" (runCounts t)]
    else [Event.finished outfile ("Input must contain a '" ++ COLUMN ++ "' column.") []]

/-- The progress percentages carried by a signal trace, in order. -/
def progressValues (tr : List Event) : List Nat :=
  tr.filterMap fun e => match e with | .progress p => some p | _ => none

/-- How many finished signals a trace carries. -/
def finishedCount (tr : List Event) : Nat :=
  tr.countP fun e => match e with | .finished _ _ _ => true | _ => false

-- ───────────────── statements of spec-side predicates ─────────────────

/-- Whether one of the first three classification rules fires on the
lower-cased domain: its extracted suffix is a generic second-level zone, a
puny-coded Chinese TLD, or is or ends in cn. -/
def rule123Fires (d : String) : Bool :=
  (GENERIC_SLD.lookup (tldextract_extract (pyLower d)).suffix).isSome
    || PUNY_TLDS.contains (tldextract_extract (pyLower d)).suffix
    || (tldextract_extract (pyLower d)).suffix == "cn"
    || endsWithDotCn (tldextract_extract (pyLower d)).suffix

/-- The script-detection predicate in the words of the claim: a character
outside printable ASCII (code points 32 to 126), or the ACE marker as a
case-insensitive four-character head. -/
def spec_internationalized_printable (l : String) : Bool :=
  (l.data.any fun c => c.toNat < 32 || 126 < c.toNat)
    || (l.data.take 4).map lowerChar == "xn--".data

-- ───────────────── sanity checks of the embedding ─────────────────
-- Values recorded in the source comments and the concrete scenarios of the
-- spec, all evaluated on the model.

example : punyEncode "中国" = "fiqs8s" := by decide
example : punyEncode "中國" = "fiqz9s" := by decide
example : punyEncode "例子" = "fsqu00a" := by decide
example : punyDecode "fiqs8s".data = some ['中'.toNat, '国'.toNat] := by decide
example : tldextract_extract "example.com.cn" =
    { subdomain := "", domain := "example", suffix := "com.cn" } := by decide
example : tldextract_extract "a.b.xj.cn" =
    { subdomain := "a", domain := "b", suffix := "xj.cn" } := by decide
example : classify "example.com.cn" = ".COM.CN" := by decide
example : classify "EXAMPLE.COM.CN" = ".COM.CN" := by decide
example : classify "例子.中国" = "IDN.IDN" := by decide
example : classify "xn--fsqu00a.xn--fiqs8s" = "IDN.XN--FIQS8S" := by decide
example : classify "example.xj.cn" = "ASCII.CN" := by decide
example : classify "notadomain" = "UNCLASSIFIED" := by decide
example : classify "Königsgäßchen.中国" = "UNCLASSIFIED" := by decide
example : classify "königsgäßchen.中国" = "IDN.IDN" := by decide
example : pyLower "Königsgäßchen.中国" = "königsgäßchen.中国" := by decide
example :
    Worker.run "out.xlsx" (.ok { columns := ["Other"], rows := ["x"] }) none =
      [Event.finished "out.xlsx" "Input must contain a 'Domain Name' column." []] := by
  decide
example :
    progressValues (Worker.run "o" (.ok { columns := [COLUMN], rows := ["a.cn", "b.cn"] }) none) =
      [0, 100] := by decide

-- ───────────────── helper lemmas ─────────────────

theorem mem_of_lookup {α β : Type} [BEq α] [LawfulBEq α] {a : α} {b : β} :
    ∀ {ps : List (α × β)}, ps.lookup a = some b → (a, b) ∈ ps := by
  intro ps
  induction ps with
  | nil => intro h; simp [List.lookup] at h
  | cons p t ih =>
    obtain ⟨k, v⟩ := p
    intro h
    unfold List.lookup at h
    split at h
    · rename_i hbeq
      obtain rfl : a = k := eq_of_beq hbeq
      obtain rfl : b = v := by injection h with h2; exact h2.symm
      exact List.mem_cons_self _ _
    · exact List.mem_cons_of_mem _ (ih h)

theorem lookup_GENERIC_values {s b : String} (h : GENERIC_SLD.lookup s = some b) :
    b = ".COM.CN" ∨ b = ".NET.CN" ∨ b = ".ORG.CN" := by
  have hm := mem_of_lookup h
  have : ∀ p ∈ GENERIC_SLD, p.2 = ".COM.CN" ∨ p.2 = ".NET.CN" ∨ p.2 = ".ORG.CN" := by decide
  exact this (s, b) hm

theorem classify_mem_allBuckets (d : String) : classify d ∈ ALL_BUCKETS := by
  simp only [classify]
  split
  · rename_i b h
    rcases lookup_GENERIC_values h with rfl | rfl | rfl <;> decide
  · split
    · split <;> decide
    · split
      · split <;> decide
      · split
        · split <;> decide
        · decide

theorem lowerChar_eq_pair {t u : Char} (hself : lowerPairs.lookup t = none)
    (hu : lowerPairs.lookup u = some t)
    (huniq : ∀ p ∈ lowerPairs, p.2 = t → p.1 = u) (c : Char) :
    lowerChar c = t ↔ (c = t ∨ c = u) := by
  unfold lowerChar
  cases h : lowerPairs.lookup c with
  | none =>
    simp only [Option.getD_none]
    constructor
    · exact fun hc => Or.inl hc
    · rintro (rfl | rfl)
      · rfl
      · rw [hu] at h; cases h
  | some v =>
    simp only [Option.getD_some]
    have hm := mem_of_lookup h
    constructor
    · intro hv; subst hv; exact Or.inr (huniq _ hm rfl)
    · rintro (rfl | rfl)
      · rw [hself] at h; cases h
      · rw [hu] at h; injection h with h2; exact h2.symm

theorem lowerChar_eq_fix {t : Char} (hself : lowerPairs.lookup t = none)
    (hno : ∀ p ∈ lowerPairs, p.2 ≠ t) (c : Char) :
    lowerChar c = t ↔ c = t := by
  unfold lowerChar
  cases h : lowerPairs.lookup c with
  | none => simp only [Option.getD_none]
  | some v =>
    simp only [Option.getD_some]
    have hm := mem_of_lookup h
    constructor
    · intro hv; exact absurd hv (hno _ hm)
    · rintro rfl; rw [hself] at h; cases h

theorem lowerChar_eq_x (c : Char) : lowerChar c = 'x' ↔ (c = 'x' ∨ c = 'X') :=
  lowerChar_eq_pair (by decide) (by decide) (by decide) c

theorem lowerChar_eq_n (c : Char) : lowerChar c = 'n' ↔ (c = 'n' ∨ c = 'N') :=
  lowerChar_eq_pair (by decide) (by decide) (by decide) c

theorem lowerChar_eq_hyphen (c : Char) : lowerChar c = '-' ↔ c = '-' :=
  lowerChar_eq_fix (by decide) (by decide) c

theorem lowerChar_idem (c : Char) : lowerChar (lowerChar c) = lowerChar c := by
  cases h : lowerPairs.lookup c with
  | none => simp [lowerChar, h]
  | some v =>
    have hm := mem_of_lookup h
    have hv : lowerPairs.lookup v = none := by
      have hall : ∀ p ∈ lowerPairs, lowerPairs.lookup p.2 = none := by decide
      exact hall (c, v) hm
    simp [lowerChar, h, hv]

theorem pyLower_idem (s : String) : pyLower (pyLower s) = pyLower s := by
  show String.mk ((s.data.map lowerChar).map lowerChar) = String.mk (s.data.map lowerChar)
  rw [List.map_map]
  exact congrArg String.mk (List.map_congr_left fun c _ => lowerChar_idem c)

theorem pyIsAscii_false_iff (l : String) :
    pyIsAscii l = false ↔ ∃ c ∈ l.data, 127 < c.toNat := by
  rw [← Bool.not_eq_true, pyIsAscii]
  simp only [List.all_eq_true, decide_eq_true_eq, not_forall]
  constructor
  · rintro ⟨c, hc, hlt⟩
    exact ⟨c, hc, by omega⟩
  · rintro ⟨c, hc, hlt⟩
    exact ⟨c, hc, by omega⟩

theorem PUNY_match_iff (l : String) :
    PUNY_match l = true ↔ (l.data.take 4).map lowerChar = "xn--".data := by
  show PUNY_match l = true ↔ (l.data.take 4).map lowerChar = ['x', 'n', '-', '-']
  obtain ⟨cs⟩ := l
  match cs with
  | [] => simp [PUNY_match]
  | [c1] => simp [PUNY_match]
  | [c1, c2] => simp [PUNY_match]
  | [c1, c2, c3] => simp [PUNY_match]
  | c1 :: c2 :: c3 :: c4 :: rest =>
    simp only [PUNY_match, List.take, List.map, Bool.and_eq_true, Bool.or_eq_true,
      beq_iff_eq, List.cons.injEq, and_true]
    rw [lowerChar_eq_x c1, lowerChar_eq_n c2, lowerChar_eq_hyphen c3, lowerChar_eq_hyphen c4]
    tauto

-- ───────────────── C1 and C2 ─────────────────

/-- C1: for every input string d, classify d is exactly one label of the
fixed closed bucket set (the eight named buckets plus UNCLASSIFIED); it is
a total function into strings, so a label is never absent and never
multiple, and every branch of the decision chain lands in the set. -/
theorem classify_total_bucket (d : String) : classify d ∈ ALL_BUCKETS :=
  classify_mem_allBuckets d

/-- C2 counterexample: the claim describes is_idn as true when the label
has a character outside PRINTABLE ASCII, but the code tests
str.isascii, which accepts every code point below 128: on the tab
character, a non-printable ASCII character, the two sides disagree. -/
theorem is_idn_printable_counterexample :
    is_idn "\t" = false ∧ spec_internationalized_printable "\t" = true ∧
      is_idn "\t" ≠ spec_internationalized_printable "\t" := by decide

/-- C2 amended: is_idn label is true exactly when the label has a character
outside ASCII (code point above 127), or its four-character head, lowered,
is the ACE marker xn-- (the case-insensitive prefix test). -/
theorem is_idn_spec (l : String) :
    is_idn l = true ↔
      (∃ c ∈ l.data, 127 < c.toNat) ∨ (l.data.take 4).map lowerChar = "xn--".data := by
  rw [is_idn, Bool.or_eq_true, Bool.not_eq_true']
  exact or_congr (pyIsAscii_false_iff l) (PUNY_match_iff l)

-- ───────────────── C3: case sensitivity ─────────────────

/-- C3 counterexample: classification is not case-insensitive.  Rule 4
re-encodes the ORIGINAL domain, and the ASCII-compatible encoding rejects
uppercase letters inside a non-ASCII label, so this domain is unclassified
while its lower-cased form lands in IDN.IDN. -/
theorem classify_case_counterexample :
    classify "Königsgäßchen.中国" ≠ classify (pyLower "Königsgäßchen.中国") ∧
      classify "Königsgäßchen.中国" = "UNCLASSIFIED" ∧
      classify "königsgäßchen.中国" = "IDN.IDN" := by decide

/-- C3 amended: classification by rules 1 to 3 is case-insensitive — when
the suffix extracted from the lower-cased domain fires rule 1, 2 or 3,
classify d equals classify (lowercase d); in particular on
EXAMPLE.COM.CN.  Full case-insensitivity fails only because rule 4 encodes
the original-case domain. -/
theorem classify_lower_of_rule123 (d : String) (h : rule123Fires d = true) :
    classify d = classify (pyLower d) := by
  unfold rule123Fires at h
  unfold classify
  rw [pyLower_idem]
  cases hg : GENERIC_SLD.lookup (tldextract_extract (pyLower d)).suffix with
  | some b => simp [hg]
  | none =>
    rw [hg] at h
    simp at h
    by_cases hp : (tldextract_extract (pyLower d)).suffix ∈ PUNY_TLDS
    · simp [hg, hp]
    · by_cases hcn1 : (tldextract_extract (pyLower d)).suffix = "cn"
      · simp [hg, hp, hcn1]
      · by_cases hcn2 : endsWithDotCn (tldextract_extract (pyLower d)).suffix = true
        · simp [hg, hp, hcn2]
        · exfalso; tauto

theorem classify_lower_of_rule123_witness :
    rule123Fires "EXAMPLE.COM.CN" = true ∧
      classify "EXAMPLE.COM.CN" = classify (pyLower "EXAMPLE.COM.CN") :=
  ⟨by decide, classify_lower_of_rule123 "EXAMPLE.COM.CN" (by decide)⟩

-- ───────────────── C4: rule priority ─────────────────

/-- C4: when the extracted suffix is a key of the generic second-level map
AND also satisfies the country-code test (it is cn or ends in .cn),
classify returns the generic bucket, never a country-code bucket: rule 1
is tried first and returns immediately. -/
theorem classify_generic_priority (d b : String)
    (h1 : GENERIC_SLD.lookup (tldextract_extract (pyLower d)).suffix = some b)
    (_h2 : ((tldextract_extract (pyLower d)).suffix == "cn"
        || endsWithDotCn (tldextract_extract (pyLower d)).suffix) = true) :
    classify d = b ∧ b ≠ "IDN.CN" ∧ b ≠ "ASCII.CN" := by
  refine ⟨?_, ?_, ?_⟩
  · simp [classify, h1]
  · rcases lookup_GENERIC_values h1 with rfl | rfl | rfl <;> decide
  · rcases lookup_GENERIC_values h1 with rfl | rfl | rfl <;> decide

theorem classify_generic_priority_witness :
    GENERIC_SLD.lookup (tldextract_extract (pyLower "example.com.cn")).suffix = some ".COM.CN" ∧
      ((tldextract_extract (pyLower "example.com.cn")).suffix == "cn"
        || endsWithDotCn (tldextract_extract (pyLower "example.com.cn")).suffix) = true ∧
      (classify "example.com.cn" = ".COM.CN" ∧
        ".COM.CN" ≠ "IDN.CN" ∧ ".COM.CN" ≠ "ASCII.CN") :=
  ⟨by decide, by decide,
    classify_generic_priority "example.com.cn" ".COM.CN" (by decide) (by decide)⟩

-- ───────────────── C5: swallowed encoding failure ─────────────────

/-- C5: when rules 1 to 3 do not fire and the ASCII-compatible re-encoding
of step 4 fails, classify returns UNCLASSIFIED: the failure is recovered
inside classify (which is a total function — nothing propagates to the
caller) and treated as the rule not matching. -/
theorem classify_encode_failure (d : String)
    (h1 : GENERIC_SLD.lookup (tldextract_extract (pyLower d)).suffix = none)
    (h2 : PUNY_TLDS.contains (tldextract_extract (pyLower d)).suffix = false)
    (h3 : ((tldextract_extract (pyLower d)).suffix == "cn"
        || endsWithDotCn (tldextract_extract (pyLower d)).suffix) = false)
    (h4 : idna_encode d = none) :
    classify d = "UNCLASSIFIED" := by
  have h2m : (tldextract_extract (pyLower d)).suffix ∉ PUNY_TLDS := by simpa using h2
  have h3m := h3
  simp at h3m
  simp [classify, h1, h2m, h3m.1, h3m.2, h4]

-- ───────────────── worker-side helper lemmas ─────────────────

theorem filterMap_progress (ps : List Nat) (f : Nat → Nat) :
    (ps.filterMap ((fun e => match e with | Event.progress p => some p | _ => none) ∘
      fun i => Event.progress (f i))) = ps.map f := by
  induction ps with
  | nil => rfl
  | cons a tl ih => simp [List.filterMap_cons, Function.comp, ih]

theorem countP_finished_progress_map (ps : List Nat) (f : Nat → Nat) :
    (ps.map fun i => Event.progress (f i)).countP
      (fun e => match e with | Event.finished _ _ _ => true | _ => false) = 0 := by
  induction ps with
  | nil => rfl
  | cons a tl ih => simp [List.countP_cons, ih]

theorem progressValues_run_ok (outfile : String) (t : InputTable) (we : Option String)
    (h : COLUMN ∈ t.columns) :
    progressValues (Worker.run outfile (.ok t) we) =
      ((List.range t.rows.length).filter fun i => i % 50 == 0).map
        (fun i => pctOf i t.rows.length) ++ [100] := by
  cases we <;>
    simp [Worker.run, h, progressValues, progressTrace, List.filterMap_append,
      filterMap_progress, List.filterMap_cons]

theorem pctOf_le_100 (i total : Nat) (h : i ≤ total) : pctOf i total ≤ 100 := by
  unfold pctOf
  have hpos : 0 < max total 1 := lt_of_lt_of_le Nat.zero_lt_one (Nat.le_max_right total 1)
  have h1 : i * 100 ≤ max total 1 * 100 :=
    Nat.mul_le_mul_right 100 (le_trans h (Nat.le_max_left total 1))
  have h2 : i * 100 / max total 1 ≤ max total 1 * 100 / max total 1 := Nat.div_le_div_right h1
  rwa [Nat.mul_div_cancel_left 100 hpos] at h2

theorem pcts_pairwise (total : Nat) :
    (((List.range total).filter fun i => i % 50 == 0).map
      fun i => pctOf i total).Pairwise (· ≤ ·) := by
  have h1 : ((List.range total).filter fun i => i % 50 == 0).Pairwise (· < ·) :=
    List.Pairwise.sublist (List.filter_sublist _) (List.pairwise_lt_range total)
  exact List.Pairwise.map _
    (fun a b hab => Nat.div_le_div_right (Nat.mul_le_mul_right 100 (Nat.le_of_lt hab))) h1

theorem countGet_cons_ne (k b : String) (n : Nat) (rest : List (String × Nat))
    (h : (b == k) = false) :
    countGet ((k, n) :: rest) b = countGet rest b := by
  simp [countGet, List.lookup, h]

theorem lookup_keyMap (ks : List String) (f : String → Nat) (x : String) :
    (ks.map fun v => (v, f v)).lookup x = if x ∈ ks then some (f x) else none := by
  induction ks with
  | nil => simp
  | cons k tl ih =>
    by_cases h : x = k
    · subst h; simp [List.lookup]
    · have hb : (x == k) = false := by simp [h]
      simp [List.lookup, hb, ih, h]

theorem countGet_valueCounts (l : List String) (v : String) :
    countGet (valueCounts l) v = l.count v := by
  unfold countGet valueCounts
  rw [lookup_keyMap]
  by_cases h : v ∈ l.dedup
  · simp [h]
  · have h2 : v ∉ l := fun hm => h (List.mem_dedup.mpr hm)
    simp [h, List.count_eq_zero.mpr h2]

theorem sum_map_add {α : Type} (bs : List α) (f g : α → Nat) :
    (bs.map fun b => f b + g b).sum = (bs.map f).sum + (bs.map g).sum := by
  induction bs with
  | nil => rfl
  | cons b tl ih =>
    simp only [List.map_cons, List.sum_cons, ih]
    omega

theorem sum_ind_zero (x : String) (bs : List String) (h : x ∉ bs) :
    (bs.map fun b => if x = b then 1 else 0).sum = 0 := by
  induction bs with
  | nil => rfl
  | cons b tl ih =>
    simp only [List.mem_cons, not_or] at h
    simp only [List.map_cons, List.sum_cons, if_neg h.1, ih h.2]

theorem sum_ind_one (x : String) (bs : List String) (hnd : bs.Nodup) (hx : x ∈ bs) :
    (bs.map fun b => if x = b then 1 else 0).sum = 1 := by
  induction bs with
  | nil => cases hx
  | cons b tl ih =>
    have hnd2 := List.nodup_cons.mp hnd
    rcases List.mem_cons.mp hx with rfl | hxt
    · simp [sum_ind_zero x tl hnd2.1]
    · have hb : x ≠ b := fun he => hnd2.1 (he ▸ hxt)
      simp [hb, ih hnd2.2 hxt]

theorem count_sum_eq_length (l bs : List String) (hsub : ∀ x ∈ l, x ∈ bs)
    (hnd : bs.Nodup) : (bs.map fun b => l.count b).sum = l.length := by
  induction l with
  | nil => simp
  | cons x tl ih =>
    have hx : x ∈ bs := hsub x (List.mem_cons_self x tl)
    have hsub2 : ∀ y ∈ tl, y ∈ bs := fun y hy => hsub y (List.mem_cons_of_mem x hy)
    have hmap : (bs.map fun b => (x :: tl).count b) =
        bs.map fun b => tl.count b + if x = b then 1 else 0 := by
      apply List.map_congr_left
      intro b _
      rw [List.count_cons]
      congr 1
      simp [beq_iff_eq]
    rw [hmap, sum_map_add, ih hsub2, sum_ind_one x bs hnd hx, List.length_cons]

theorem finished_counts_eq (outfile : String) (t : InputTable) (cs : List (String × Nat))
    (hcol : COLUMN ∈ t.columns)
    (hfin : Event.finished outfile "" cs ∈ Worker.run outfile (.ok t) none) :
    cs = runCounts t := by
  simp [Worker.run, hcol, progressTrace, List.mem_append, List.mem_map] at hfin
  exact hfin

theorem filter_isEmpty_not_any {α : Type} (l : List α) (p : α → Bool) :
    (l.filter p).isEmpty = !(l.any p) := by
  induction l with
  | nil => rfl
  | cons a tl ih =>
    cases hpa : p a with
    | true => simp [List.filter_cons, hpa, List.any_cons]
    | false => simp [List.filter_cons, hpa, List.any_cons, ih]

theorem msw_general (df : List LabeledRow) (bs : List String) :
    (bs.filterMap fun b =>
      let sub := df.filter fun r => r.bucket == b
      if sub.isEmpty then none else some (pyTake 31 b, sub)) =
    (bs.filter fun b => df.any fun r => r.bucket == b).map
      (fun b => (pyTake 31 b, df.filter fun r => r.bucket == b)) := by
  induction bs with
  | nil => rfl
  | cons b tl ih =>
    cases hany : df.any fun r => r.bucket == b with
    | true =>
      have hne : (df.filter fun r => r.bucket == b).isEmpty = false := by
        rw [filter_isEmpty_not_any, hany]; rfl
      rw [List.filterMap_cons, ih]
      simp [hne, hany]
    | false =>
      have hem : (df.filter fun r => r.bucket == b).isEmpty = true := by
        rw [filter_isEmpty_not_any, hany]; rfl
      rw [List.filterMap_cons, ih]
      simp [hem, hany]

-- ───────────────── C6 to C10 ─────────────────

/-- C6: when the input table has no column named exactly Domain Name, the
run raises the schema error, the single finished signal carries the
human-readable message and empty counts, and nothing is written (the trace
holds no write event and no progress event). -/
theorem run_missing_column (outfile : String) (t : InputTable) (writeErr : Option String)
    (h : COLUMN ∉ t.columns) :
    Worker.run outfile (.ok t) writeErr =
      [Event.finished outfile ("Input must contain a '" ++ COLUMN ++ "' column.") []] := by
  simp [Worker.run, h]

theorem run_missing_column_witness :
    COLUMN ∉ (InputTable.mk ["Other"] ["a"]).columns ∧
      Worker.run "out.xlsx" (.ok (InputTable.mk ["Other"] ["a"])) none =
        [Event.finished "out.xlsx" "Input must contain a 'Domain Name' column." []] := by
  refine ⟨by decide, ?_⟩
  rw [run_missing_column "out.xlsx" (InputTable.mk ["Other"] ["a"]) none (by decide)]
  decide

/-- C7 counterexample: on a run that fails before the row loop (here: the
required column is missing) no progress checkpoint is emitted at all, so
the emitted progress sequence does not end at 100 as the claim states for
every batch run. -/
theorem run_progress_claim_counterexample :
    (progressValues (Worker.run "out.xlsx"
        (.ok (InputTable.mk ["Other"] ["x"])) none)).getLast? ≠ some 100 := by decide

/-- C7 amended: the emitted progress percentages are monotonically
non-decreasing and lie in 0 to 100, exactly one finished signal is
delivered, and on every run that passes input reading and schema validation
the last progress value is exactly 100; a run failing before the loop emits
no progress checkpoint at all. -/
theorem run_progress_events (outfile : String) (rr : Except String InputTable)
    (writeErr : Option String) :
    (progressValues (Worker.run outfile rr writeErr)).Pairwise (· ≤ ·) ∧
    (∀ p ∈ progressValues (Worker.run outfile rr writeErr), p ≤ 100) ∧
    (∀ t, rr = Except.ok t → COLUMN ∈ t.columns →
      (progressValues (Worker.run outfile rr writeErr)).getLast? = some 100) ∧
    finishedCount (Worker.run outfile rr writeErr) = 1 := by
  cases rr with
  | error e =>
    refine ⟨?_, ?_, ?_, ?_⟩
    · simp [Worker.run, progressValues]
    · simp [Worker.run, progressValues]
    · intro t ht hcol; simp at ht
    · simp [Worker.run, finishedCount, List.countP_cons]
  | ok t =>
    by_cases h : COLUMN ∈ t.columns
    · have hpv := progressValues_run_ok outfile t writeErr h
      have hb : ∀ p ∈ ((List.range t.rows.length).filter fun i => i % 50 == 0).map
          (fun i => pctOf i t.rows.length), p ≤ 100 := by
        intro p hp
        obtain ⟨i, hi, rfl⟩ := List.mem_map.mp hp
        have hir : i < t.rows.length := List.mem_range.mp (List.mem_filter.mp hi).1
        exact pctOf_le_100 i t.rows.length (Nat.le_of_lt hir)
      refine ⟨?_, ?_, ?_, ?_⟩
      · rw [hpv, List.pairwise_append]
        refine ⟨pcts_pairwise t.rows.length, List.pairwise_singleton _ _, ?_⟩
        intro a ha b hb2
        rw [List.mem_singleton] at hb2
        subst hb2
        exact hb a ha
      · rw [hpv]
        intro p hp
        rcases List.mem_append.mp hp with hp1 | hp2
        · exact hb p hp1
        · rw [List.mem_singleton] at hp2; subst hp2; exact le_refl 100
      · intro t2 ht2 hcol
        rw [hpv]
        exact List.getLast?_concat _
      · cases writeErr <;>
          simp [Worker.run, h, finishedCount, List.countP_append, progressTrace,
            List.countP_cons, countP_finished_progress_map]
    · refine ⟨?_, ?_, ?_, ?_⟩
      · simp [Worker.run, h, progressValues]
      · simp [Worker.run, h, progressValues]
      · intro t2 ht2 hcol
        injection ht2 with ht3
        subst ht3
        exact absurd hcol h
      · simp [Worker.run, h, finishedCount, List.countP_cons]

theorem run_progress_events_witness :
    (progressValues (Worker.run "o"
      (.ok (InputTable.mk ["Domain Name"] ["a.cn"])) none)).Pairwise (· ≤ ·) ∧
    (∀ p ∈ progressValues (Worker.run "o"
      (.ok (InputTable.mk ["Domain Name"] ["a.cn"])) none), p ≤ 100) ∧
    (progressValues (Worker.run "o"
      (.ok (InputTable.mk ["Domain Name"] ["a.cn"])) none)).getLast? = some 100 ∧
    finishedCount (Worker.run "o" (.ok (InputTable.mk ["Domain Name"] ["a.cn"])) none) = 1 :=
  have h := run_progress_events "o" (.ok (InputTable.mk ["Domain Name"] ["a.cn"])) none
  ⟨h.1, h.2.1, h.2.2.1 _ rfl (by decide), h.2.2.2⟩

/-- C8: on a successful run, the sum over the fixed bucket enumeration of
the reported per-bucket counts equals the reported TOTAL, which equals the
number of input rows. -/
theorem run_counts_sum (outfile : String) (t : InputTable) (cs : List (String × Nat))
    (hcol : COLUMN ∈ t.columns)
    (hfin : Event.finished outfile "" cs ∈ Worker.run outfile (.ok t) none) :
    (ALL_BUCKETS.map fun b => countGet cs b).sum = countGet cs "TOTAL" ∧
    countGet cs "TOTAL" = t.rows.length := by
  obtain rfl : cs = runCounts t := finished_counts_eq outfile t cs hcol hfin
  have htot : countGet (runCounts t) "TOTAL" = t.rows.length := by
    simp [countGet, runCounts, List.lookup]
  constructor
  · rw [htot]
    have hmap : (ALL_BUCKETS.map fun b => countGet (runCounts t) b) =
        ALL_BUCKETS.map fun b => (bucketLabels t).count b := by
      apply List.map_congr_left
      intro b hb
      have hbne : b ≠ "TOTAL" := by
        intro he
        have hnot : "TOTAL" ∉ ALL_BUCKETS := by decide
        exact hnot (he ▸ hb)
      have hne : (b == "TOTAL") = false := by simp [hbne]
      simp only [runCounts]
      rw [countGet_cons_ne _ _ _ _ hne, countGet_valueCounts]
    rw [hmap]
    have hsub : ∀ x ∈ bucketLabels t, x ∈ ALL_BUCKETS := by
      intro x hx
      obtain ⟨v, hv, rfl⟩ := List.mem_map.mp hx
      exact classify_mem_allBuckets _
    rw [count_sum_eq_length (bucketLabels t) ALL_BUCKETS hsub (by decide)]
    simp [bucketLabels]
  · exact htot

theorem run_counts_sum_witness :
    COLUMN ∈ (InputTable.mk ["Domain Name"]
      ["example.com.cn", "EXAMPLE.COM.CN", "notadomain"]).columns ∧
    Event.finished "o" "" (runCounts (InputTable.mk ["Domain Name"]
        ["example.com.cn", "EXAMPLE.COM.CN", "notadomain"])) ∈
      Worker.run "o" (.ok (InputTable.mk ["Domain Name"]
        ["example.com.cn", "EXAMPLE.COM.CN", "notadomain"])) none ∧
    ((ALL_BUCKETS.map fun b => countGet (runCounts (InputTable.mk ["Domain Name"]
        ["example.com.cn", "EXAMPLE.COM.CN", "notadomain"])) b).sum =
      countGet (runCounts (InputTable.mk ["Domain Name"]
        ["example.com.cn", "EXAMPLE.COM.CN", "notadomain"])) "TOTAL" ∧
     countGet (runCounts (InputTable.mk ["Domain Name"]
        ["example.com.cn", "EXAMPLE.COM.CN", "notadomain"])) "TOTAL" =
      (InputTable.mk ["Domain Name"]
        ["example.com.cn", "EXAMPLE.COM.CN", "notadomain"]).rows.length) :=
  ⟨by decide, by decide,
    run_counts_sum "o" (InputTable.mk ["Domain Name"]
      ["example.com.cn", "EXAMPLE.COM.CN", "notadomain"]) _ (by decide) (by decide)⟩

/-- C9: the report writer emits, iterating the fixed bucket enumeration in
its canonical order, one sheet per bucket with at least one row — named by
the bucket label cut to 31 characters and holding exactly the rows of that
bucket — and no sheet for an empty bucket; every emitted sheet is a
nonempty order-preserving selection of the input rows. -/
theorem multi_sheet_write_spec (df : List LabeledRow) :
    multi_sheet_write df =
      (ALL_BUCKETS.filter fun b => df.any fun r => r.bucket == b).map
        (fun b => (pyTake 31 b, df.filter fun r => r.bucket == b)) ∧
    ∀ nm sub, (nm, sub) ∈ multi_sheet_write df → sub.Sublist df ∧ sub ≠ [] := by
  constructor
  · exact msw_general df ALL_BUCKETS
  · intro nm sub hmem
    unfold multi_sheet_write at hmem
    obtain ⟨b, hb, hfb⟩ := List.mem_filterMap.mp hmem
    by_cases hem : (df.filter fun r => r.bucket == b).isEmpty = true
    · simp [hem] at hfb
    · have hne : (df.filter fun r => r.bucket == b).isEmpty = false := by
        cases hx : (df.filter fun r => r.bucket == b).isEmpty
        · rfl
        · exact absurd hx hem
      simp [hne] at hfb
      obtain ⟨hnm, hsub⟩ := hfb
      subst hsub
      constructor
      · exact List.filter_sublist df
      · intro hcon
        rw [hcon] at hne
        simp at hne

theorem multi_sheet_write_witness :
    multi_sheet_write [LabeledRow.mk ["a"] "ASCII.CN", LabeledRow.mk ["b"] "UNCLASSIFIED",
        LabeledRow.mk ["c"] "ASCII.CN"] =
      (ALL_BUCKETS.filter fun b => [LabeledRow.mk ["a"] "ASCII.CN",
          LabeledRow.mk ["b"] "UNCLASSIFIED", LabeledRow.mk ["c"] "ASCII.CN"].any
          fun r => r.bucket == b).map
        (fun b => (pyTake 31 b, [LabeledRow.mk ["a"] "ASCII.CN",
          LabeledRow.mk ["b"] "UNCLASSIFIED", LabeledRow.mk ["c"] "ASCII.CN"].filter
          fun r => r.bucket == b)) ∧
    ([LabeledRow.mk ["a"] "ASCII.CN", LabeledRow.mk ["c"] "ASCII.CN"].Sublist
        [LabeledRow.mk ["a"] "ASCII.CN", LabeledRow.mk ["b"] "UNCLASSIFIED",
          LabeledRow.mk ["c"] "ASCII.CN"] ∧
      [LabeledRow.mk ["a"] "ASCII.CN", LabeledRow.mk ["c"] "ASCII.CN"] ≠ []) :=
  have h := multi_sheet_write_spec [LabeledRow.mk ["a"] "ASCII.CN",
    LabeledRow.mk ["b"] "UNCLASSIFIED", LabeledRow.mk ["c"] "ASCII.CN"]
  ⟨h.1, h.2 "ASCII.CN" [LabeledRow.mk ["a"] "ASCII.CN", LabeledRow.mk ["c"] "ASCII.CN"]
    (by decide)⟩

/-- C10: the checkpoint percentage divides by max(total, 1), so the trace
is well defined for every row count; on a table with the required column
and zero rows the loop body never runs and the single progress emission is
the final 100. -/
theorem run_zero_rows (outfile : String) (t : InputTable)
    (hcol : COLUMN ∈ t.columns) (hrows : t.rows = []) :
    progressValues (Worker.run outfile (.ok t) none) = [100] := by
  rw [progressValues_run_ok outfile t none hcol, hrows]
  simp

theorem run_zero_rows_witness :
    COLUMN ∈ (InputTable.mk ["Domain Name"] []).columns ∧
      (InputTable.mk ["Domain Name"] ([] : List String)).rows = [] ∧
      progressValues (Worker.run "o" (.ok (InputTable.mk ["Domain Name"] [])) none) = [100] :=
  ⟨by decide, rfl, run_zero_rows "o" (InputTable.mk ["Domain Name"] []) (by decide) rfl⟩

theorem classify_encode_failure_witness :
    GENERIC_SLD.lookup (tldextract_extract (pyLower "☃.com")).suffix = none ∧
      PUNY_TLDS.contains (tldextract_extract (pyLower "☃.com")).suffix = false ∧
      ((tldextract_extract (pyLower "☃.com")).suffix == "cn"
        || endsWithDotCn (tldextract_extract (pyLower "☃.com")).suffix) = false ∧
      idna_encode "☃.com" = none ∧
      classify "☃.com" = "UNCLASSIFIED" :=
  ⟨by decide, by decide, by decide, by decide,
    classify_encode_failure "☃.com" (by decide) (by decide) (by decide) (by decide)⟩
